import Mathlib

/-!
# Coplay shared header (`src/coplay.h`): embedding and verified properties

The header declares the shared vocabulary of the relay (join filters, roles,
close reasons, control tokens), two byte-order helpers, the per-peer
connection object and the inline parts of the connection handler
(constructor, `Init`, `PostInit`, `GetRole`).  Each of these is embedded
below as an executable Lean definition and the properties are proved after
the definitions.

Conventions of the embedding

* machine integers are natural numbers, with the width as a bound in the
  statements (`x < 2 ^ 32`);
* a C string is the list of its characters before the terminator;
* `float` fields are carried as their 32-bit pattern, no arithmetic is done
  on them in the header;
* code with effects threads an explicit state or returns its effect trace.
-/

namespace Coplay

/-! ## Definitions -/

/-! ### C enumerations -/

/-- Values a C compiler gives to the enumerators of an `enum`, in declaration
order: an enumerator with an initialiser takes it, one without takes the
previous value plus one (`next` is the value the first one would default to). -/
def enumValues : Int → List (Option Int) → List Int
  | _, [] => []
  | next, init :: rest =>
    let v := init.getD next
    v :: enumValues (v + 1) rest

/-- The `enum JoinFilter` of the header. -/
inductive JoinFilter where
  | eP2PFilter_OFF
  | eP2PFilter_CONTROLLED
  | eP2PFilter_FRIENDS
  | eP2PFilter_EVERYONE
deriving DecidableEq, Repr

/-- Position of an enumerator in the declaration of `JoinFilter`. -/
def JoinFilter.ordinal : JoinFilter → Nat
  | .eP2PFilter_OFF => 0
  | .eP2PFilter_CONTROLLED => 1
  | .eP2PFilter_FRIENDS => 2
  | .eP2PFilter_EVERYONE => 3

/-- Initialisers written in the declaration of `JoinFilter`:
`OFF = -1, CONTROLLED = 0, FRIENDS = 1, EVERYONE = 2`. -/
def JoinFilter.initialisers : List (Option Int) := [some (-1), some 0, some 1, some 2]

/-- Integer value of a `JoinFilter` enumerator. -/
def JoinFilter.toInt (f : JoinFilter) : Int :=
  (enumValues 0 JoinFilter.initialisers).getD f.ordinal 0

/-- The `enum ConnectionRole` of the header. -/
inductive ConnectionRole where
  | eConnectionRole_UNAVAILABLE
  | eConnectionRole_NOT_CONNECTED
  | eConnectionRole_HOST
  | eConnectionRole_CLIENT
deriving DecidableEq, Repr

/-- Position of an enumerator in the declaration of `ConnectionRole`. -/
def ConnectionRole.ordinal : ConnectionRole → Nat
  | .eConnectionRole_UNAVAILABLE => 0
  | .eConnectionRole_NOT_CONNECTED => 1
  | .eConnectionRole_HOST => 2
  | .eConnectionRole_CLIENT => 3

/-- Initialisers written in the declaration of `ConnectionRole`:
`UNAVAILABLE = -1, NOT_CONNECTED = 0`, the last two have none. -/
def ConnectionRole.initialisers : List (Option Int) := [some (-1), some 0, none, none]

/-- Integer value of a `ConnectionRole` enumerator. -/
def ConnectionRole.toInt (r : ConnectionRole) : Int :=
  (enumValues 0 ConnectionRole.initialisers).getD r.ordinal 0

/-- The `enum ConnectionEndReason` of the header (the enumerators carry the
common stem `k_ESteamNetConnectionEnd_`). -/
inductive ConnectionEndReason where
  | App_NotOpen
  | App_ServerFull
  | App_RemoteIssue
  | App_ClosedByPeer
  | App_NotFriend
  | App_BadPassword
deriving DecidableEq, Repr

/-- Position of an enumerator in the declaration of `ConnectionEndReason`. -/
def ConnectionEndReason.ordinal : ConnectionEndReason → Nat
  | .App_NotOpen => 0
  | .App_ServerFull => 1
  | .App_RemoteIssue => 2
  | .App_ClosedByPeer => 3
  | .App_NotFriend => 4
  | .App_BadPassword => 5

/-- Initialisers written in the declaration of `ConnectionEndReason`: only
the first enumerator has one (`= 1001`). -/
def ConnectionEndReason.initialisers : List (Option Int) :=
  [some 1001, none, none, none, none, none]

/-- Integer value of a `ConnectionEndReason` enumerator, the code handed to
the relay when a connection is closed. -/
def ConnectionEndReason.toInt (r : ConnectionEndReason) : Int :=
  (enumValues 0 ConnectionEndReason.initialisers).getD r.ordinal 0

/-! ### Shared defines -/

/-- The define `COPLAY_MAX_PACKETS`. -/
def COPLAY_MAX_PACKETS : Nat := 16

/-- The define `COPLAY_NETMSG_NEEDPASS`. -/
def COPLAY_NETMSG_NEEDPASS : String := "NeedPass"

/-- The define `COPLAY_NETMSG_OK`. -/
def COPLAY_NETMSG_OK : String := "OK"

/-! ### Byte-order helpers -/

/-- Byte order of the host: which end of an integer sits at the lowest
address of its object representation. -/
inductive ByteOrder where
  | little
  | big
deriving DecidableEq, Repr

/-- The read `((byte*)&num)[k]` for an unsigned integer `num` of `width`
bytes: the byte stored at offset `k` of its object representation. -/
def readByte (bo : ByteOrder) (width : Nat) (num : Nat) (k : Nat) : Nat :=
  match bo with
  | .little => (num >>> (8 * k)) &&& 0xFF
  | .big => (num >>> (8 * (width - 1 - k))) &&& 0xFF

/-- The read `*((uint32*)newnum)` of four bytes `newnum[0] .. newnum[3]`. -/
def loadU32 (bo : ByteOrder) (b0 b1 b2 b3 : Nat) : Nat :=
  match bo with
  | .little => b0 ||| (b1 <<< 8) ||| (b2 <<< 16) ||| (b3 <<< 24)
  | .big => b3 ||| (b2 <<< 8) ||| (b1 <<< 16) ||| (b0 <<< 24)

/-- The read `*((uint16*)newnum)` of two bytes `newnum[0], newnum[1]`. -/
def loadU16 (bo : ByteOrder) (b0 b1 : Nat) : Nat :=
  match bo with
  | .little => b0 ||| (b1 <<< 8)
  | .big => b1 ||| (b0 <<< 8)

/-- The function `SwapEndian32` on a host of byte order `bo`. -/
def SwapEndian32 (bo : ByteOrder) (num : Nat) : Nat :=
  let newnum0 := readByte bo 4 num 3
  let newnum1 := readByte bo 4 num 2
  let newnum2 := readByte bo 4 num 1
  let newnum3 := readByte bo 4 num 0
  loadU32 bo newnum0 newnum1 newnum2 newnum3

/-- The function `SwapEndian16` on a host of byte order `bo`. -/
def SwapEndian16 (bo : ByteOrder) (num : Nat) : Nat :=
  let newnum0 := readByte bo 2 num 1
  let newnum1 := readByte bo 2 num 0
  loadU16 bo newnum0 newnum1

/-- Byte `k` of the value `x`, counted from the least significant one. -/
def byteOf (x k : Nat) : Nat := (x >>> (8 * k)) &&& 0xFF

/-! ### The per-peer connection object -/

/-- A `float` field, carried as its 32-bit pattern. -/
structure CFloat where
  bits : Nat
deriving DecidableEq, Repr

/-- The SDL_net `IPaddress` record (`Uint32 host; Uint16 port`). -/
structure IPaddress where
  host : Nat
  port : Nat
deriving DecidableEq, Repr

/-- Data members of `class CCoplayConnection`, in declaration order.  The
public members come first, `DeletionQueued` and `LastPacketTime` are the
private ones. -/
structure CCoplayConnection where
  GameReady : Bool
  LocalSocket : Nat
  Port : Nat
  SendbackAddress : IPaddress
  SteamConnection : Nat
  TimeStarted : CFloat
  DeletionQueued : Bool
  LastPacketTime : CFloat
deriving DecidableEq, Repr

/-- The member function `QueueForDeletion()`, body `DeletionQueued = true;`. -/
def CCoplayConnection.QueueForDeletion (c : CCoplayConnection) : CCoplayConnection :=
  { c with DeletionQueued := true }

/-- What code outside the class can do to an existing connection through the
public part of the class: call `QueueForDeletion()` or assign one of the six
public data members. -/
inductive PublicOp where
  | callQueueForDeletion
  | assignGameReady (v : Bool)
  | assignLocalSocket (v : Nat)
  | assignPort (v : Nat)
  | assignSendbackAddress (v : IPaddress)
  | assignSteamConnection (v : Nat)
  | assignTimeStarted (v : CFloat)
deriving DecidableEq, Repr

/-- Effect of one public operation on the connection. -/
def PublicOp.run : PublicOp → CCoplayConnection → CCoplayConnection
  | .callQueueForDeletion, c => c.QueueForDeletion
  | .assignGameReady v, c => { c with GameReady := v }
  | .assignLocalSocket v, c => { c with LocalSocket := v }
  | .assignPort v, c => { c with Port := v }
  | .assignSendbackAddress v, c => { c with SendbackAddress := v }
  | .assignSteamConnection v, c => { c with SteamConnection := v }
  | .assignTimeStarted v, c => { c with TimeStarted := v }

/-- Effect of a sequence of public operations, first to last. -/
def runPublicOps (ops : List PublicOp) (c : CCoplayConnection) : CCoplayConnection :=
  ops.foldl (fun st op => op.run st) c

/-! ### Pending connections and the connection handler -/

/-- The `struct PendingConnection`. -/
structure PendingConnection where
  SteamConnection : Nat
  TimeCreated : CFloat
deriving DecidableEq, Repr

/-- The constructor `PendingConnection()`: handle `0`, time `0.0f` (whose bit
pattern is zero). -/
def PendingConnection.new : PendingConnection :=
  { SteamConnection := 0, TimeCreated := ⟨0⟩ }

/-- Data members of `class CCoplayConnectionHandler` in the build without
lobbies (the default: `COPLAY_USE_LOBBIES` is commented out).  `Connections`
holds the connection objects the vector of pointers refers to. -/
structure CCoplayConnectionHandler where
  msSleepTime : Nat
  Role : ConnectionRole
  HP2PSocket : Nat
  Password : List Char
  PendingConnections : List PendingConnection
  Connections : List CCoplayConnection
deriving DecidableEq, Repr

/-- The constructor `CCoplayConnectionHandler()`: it assigns `msSleepTime = 3`
and `Role = eConnectionRole_UNAVAILABLE`; the string and the two vectors are
default-constructed empty; `HP2PSocket` is not written and keeps whatever
value `indeterminate` its storage held. -/
def CCoplayConnectionHandler.new (indeterminate : Nat) : CCoplayConnectionHandler :=
  { msSleepTime := 3
    Role := .eConnectionRole_UNAVAILABLE
    HP2PSocket := indeterminate
    Password := []
    PendingConnections := []
    Connections := [] }

/-- The member function `GetRole()`, body `return Role;`: the returned value
and the handler after the call. -/
def CCoplayConnectionHandler.GetRole (h : CCoplayConnectionHandler) :
    ConnectionRole × CCoplayConnectionHandler :=
  (h.Role, h)

/-- The member function `GetPassword()`, body `return Password;`. -/
def CCoplayConnectionHandler.GetPassword (h : CCoplayConnectionHandler) :
    List Char × CCoplayConnectionHandler :=
  (h.Password, h)

/-! ### `Init` -/

/-- What `Init` reads from its surroundings: whether the translation unit is
compiled with `GAME_DLL`, the answer of `engine->IsDedicatedServer()`, and the
values `SDL_Init(0)` and `SDLNet_Init()` return when they are called. -/
structure InitEnv where
  GAME_DLL : Bool
  IsDedicatedServer : Bool
  SDL_Init : Int
  SDLNet_Init : Int
deriving DecidableEq, Repr

/-- Process state `Init` writes: the global `g_pCoplayConnectionHandler`
(`none` is the null pointer), the game systems handed to `Remove`, whether
`InitRelayNetworkAccess()` was called, and the console output. -/
structure Process where
  g_pCoplayConnectionHandler : Option Nat
  removed : List Nat
  relayNetworkAccess : Bool
  console : List String
deriving DecidableEq, Repr

/-- How a call ends: it returns a value, or the engine routine `Error` is
called, which reports the message and terminates the process. -/
inductive Outcome (α : Type) where
  | returned (value : α) (after : Process)
  | fatalError (message : String) (after : Process)
deriving DecidableEq, Repr

/-- The member function `Init()` of the handler at address `this`. -/
def CCoplayConnectionHandler.Init (env : InitEnv) (this : Nat) (p : Process) : Outcome Bool :=
  let p1 := { p with console := p.console ++ ["[Coplay] Initialization started...\n"] }
  if env.GAME_DLL && !env.IsDedicatedServer then
    .returned true { p1 with removed := p1.removed ++ [this] }
  else if env.SDL_Init ≠ 0 then
    .fatalError "SDL Failed to Initialize" p1
  else if env.SDLNet_Init ≠ 0 then
    .fatalError "SDLNet Failed to Initialize" p1
  else
    let p2 := { p1 with relayNetworkAccess := true }
    .returned true { p2 with g_pCoplayConnectionHandler := some this }

/-- The state the process is in when the call ends. -/
def Outcome.after {α : Type} : Outcome α → Process
  | .returned _ p => p
  | .fatalError _ p => p

/-- Whether the call ended in `Error`. -/
def Outcome.isFatal {α : Type} : Outcome α → Bool
  | .returned _ _ => false
  | .fatalError _ _ => true

/-- Whether `Init` gets as far as the transport initialisers: it does unless
the `GAME_DLL` block returns early. -/
def InitEnv.reachesInitialisers (env : InitEnv) : Bool :=
  !(env.GAME_DLL && !env.IsDedicatedServer)

/-! ### `PostInit` -/

/-- The character a C string holds at index `i`: past its last character the
terminator, character code zero. -/
def charAt (s : List Char) (i : Nat) : Char := s.getD i (Char.ofNat 0)

/-- The Source SDK routine `V_strncmp(s1, s2, count)`: compares at most
`count` characters, stops at the first difference or at a terminator. -/
def V_strncmp (s1 s2 : List Char) : Nat → Int
  | 0 => 0
  | count + 1 =>
    if charAt s1 0 ≠ charAt s2 0 then
      (if (charAt s1 0).toNat < (charAt s2 0).toNat then -1 else 1)
    else if charAt s1 0 = Char.ofNat 0 then 0
    else V_strncmp s1.tail s2.tail count

/-- The call `Q_snprintf(dest, size, "%s", src)`: `dest` receives the first
`size - 1` characters of `src` and a terminator. -/
def Q_snprintf_s (size : Nat) (src : List Char) : List Char := src.take (size - 1)

/-- Size of `GameRichPresenceJoinRequested_t::m_rgchConnect` in the Steamworks
headers (`k_cchMaxRichPresenceValueLength`). -/
def k_cchMaxRichPresenceValueLength : Nat := 256

/-- Size of the local array `szCommandLine`. -/
def szCommandLineSize : Nat := 256

/-- The effects `PostInit` has on its surroundings, in program order. -/
inductive Effect where
  | SetConVar (name : String) (value : Int)
  | DevMsg (level : Nat) (text : List Char)
  | JoinGame (m_rgchConnect : List Char)
deriving DecidableEq, Repr

/-- The member function `PostInit()`.  `szCommandLine` is the string
`GetLaunchCommandLine` left in the local array; `dontSetThreadMode` says
whether `COPLAY_DONT_SET_THREADMODE` is defined. -/
def CCoplayConnectionHandler.PostInit (dontSetThreadMode : Bool) (szCommandLine : List Char) :
    List Effect :=
  [Effect.SetConVar "net_usesocketsforloopback" 1]
  ++ (if dontSetThreadMode then [] else [Effect.SetConVar "host_thread_mode" 0])
  ++ [Effect.DevMsg 1 ("LaunchCmdLine: '".toList ++ szCommandLine ++ "'\n".toList)]
  ++ (if V_strncmp szCommandLine "+coplay_connect".toList 15 = 0 then
        [Effect.JoinGame (Q_snprintf_s k_cchMaxRichPresenceValueLength szCommandLine)]
      else [])

/-- The connect strings of the join requests among the effects. -/
def joinRequests : List Effect → List (List Char)
  | [] => []
  | Effect.JoinGame c :: rest => c :: joinRequests rest
  | _ :: rest => joinRequests rest

/-! ### Admission and password handshake (host side)

The header only declares the callback `ConnectionStatusUpdated`; its body and
the worker loop that exchanges the control tokens live in translation units
outside the header.  The definitions of this section follow the written
specification of that code (sections 2, 4.1 and 6). -/

/-- Modelled from the spec: the client's acknowledgement on the control
channel, which the header does not build itself, is the literal token `OK`
followed immediately by the password bytes. -/
def clientReply (password : List Char) : List Char :=
  COPLAY_NETMSG_OK.toList ++ password

/-- Modelled from the spec: verdict of the join policy on a connection
attempt, whose deciding code (the body of `ConnectionStatusUpdated`) is not in
the header.  `needPass` parks the connection as pending and sends `NeedPass`. -/
inductive PolicyVerdict where
  | accept
  | reject (reason : ConnectionEndReason)
  | needPass
deriving DecidableEq, Repr

/-- Modelled from the spec: the join policy of section 4.1 step 1 (the body of
`ConnectionStatusUpdated` is missing).  Off rejects with NotOpen, Everyone
accepts, Friends accepts friends and rejects others with NotFriend, Controlled
asks for the password. -/
def JoinPolicy (filter : JoinFilter) (isFriend : Bool) : PolicyVerdict :=
  match filter with
  | .eP2PFilter_OFF => .reject .App_NotOpen
  | .eP2PFilter_EVERYONE => .accept
  | .eP2PFilter_FRIENDS => if isFriend then .accept else .reject .App_NotFriend
  | .eP2PFilter_CONTROLLED => .needPass

/-- Modelled from the spec: what a pending connection experiences next (the
handshake code is missing from the header): a control message arrives, or the
entry ages past `timeoutduration` without one. -/
inductive HandshakeEvent where
  | controlMessage (bytes : List Char)
  | timedOut
deriving DecidableEq, Repr

/-- Modelled from the spec: final decision on a connection attempt (the
deciding code is missing from the header). -/
inductive AdmissionOutcome where
  | accepted
  | rejected (reason : ConnectionEndReason)
deriving DecidableEq, Repr

/-- Modelled from the spec: section 4.1 step 2 and the pending sweep (the
handshake code is missing from the header).  A pending connection is promoted
when the control message is `OK` followed by bytes equal to the password;
any other message, and a timeout, close it with BadPassword. -/
def handshake (Password : List Char) : HandshakeEvent → AdmissionOutcome
  | .controlMessage bytes =>
    if bytes = COPLAY_NETMSG_OK.toList ++ Password then .accepted
    else .rejected .App_BadPassword
  | .timedOut => .rejected .App_BadPassword

/-- Modelled from the spec: host-side admission of one connection attempt
(the body of `ConnectionStatusUpdated` is missing): the join policy, followed
by the handshake when the policy asks for the password. -/
def hostAdmission (filter : JoinFilter) (isFriend : Bool) (Password : List Char)
    (event : HandshakeEvent) : AdmissionOutcome :=
  match JoinPolicy filter isFriend with
  | .accept => .accepted
  | .reject reason => .rejected reason
  | .needPass => handshake Password event

/-- Modelled from the spec: the event a client causes at the host (client
code is missing from the header): with a password it sends `clientReply`,
with none it sends nothing and the pending entry times out. -/
def clientEvent : Option (List Char) → HandshakeEvent
  | some password => .controlMessage (clientReply password)
  | none => .timedOut

/-! ## Theorems -/

/-! ### Enumerations and tokens -/

/-- C2: the close-reason codes of `ConnectionEndReason` are NotOpen = 1001,
ServerFull = 1002, RemoteIssue = 1003, ClosedByPeer = 1004, NotFriend = 1005
and BadPassword = 1006; the mapping from reason to code is injective, so the
six codes are pairwise distinct. -/
theorem ConnectionEndReason_codes :
    ConnectionEndReason.App_NotOpen.toInt = 1001 ∧
    ConnectionEndReason.App_ServerFull.toInt = 1002 ∧
    ConnectionEndReason.App_RemoteIssue.toInt = 1003 ∧
    ConnectionEndReason.App_ClosedByPeer.toInt = 1004 ∧
    ConnectionEndReason.App_NotFriend.toInt = 1005 ∧
    ConnectionEndReason.App_BadPassword.toInt = 1006 ∧
    Function.Injective ConnectionEndReason.toInt ∧
    (List.map ConnectionEndReason.toInt
      [.App_NotOpen, .App_ServerFull, .App_RemoteIssue, .App_ClosedByPeer,
       .App_NotFriend, .App_BadPassword]).Nodup := by
  refine ⟨by decide, by decide, by decide, by decide, by decide, by decide, ?_, by decide⟩
  intro a b h
  cases a <;> cases b <;> first | rfl | (exact absurd h (by decide))

/-- C3: `COPLAY_NETMSG_NEEDPASS` is exactly the 8 bytes of "NeedPass" and
`COPLAY_NETMSG_OK` exactly the 2 bytes of "OK"; for every password `p` the
client reply is "OK" followed directly by `p`: its first two characters are
`O`, `K`, what follows them is `p`, and its length is `2 + |p|`. -/
theorem control_tokens_exact (p : List Char) :
    COPLAY_NETMSG_NEEDPASS.toList = "NeedPass".toList ∧
    COPLAY_NETMSG_NEEDPASS.toList.map Char.toNat = [78, 101, 101, 100, 80, 97, 115, 115] ∧
    COPLAY_NETMSG_NEEDPASS.utf8ByteSize = 8 ∧
    COPLAY_NETMSG_OK.toList.map Char.toNat = [79, 75] ∧
    COPLAY_NETMSG_OK.utf8ByteSize = 2 ∧
    clientReply p = "OK".toList ++ p ∧
    (clientReply p).take 2 = "OK".toList ∧
    (clientReply p).drop 2 = p ∧
    (clientReply p).length = 2 + p.length := by
  refine ⟨rfl, by decide, by decide, by decide, by decide, rfl, rfl, rfl, ?_⟩
  simp [clientReply, COPLAY_NETMSG_OK]
  omega

/-! ### The connection object -/

/-- A public operation never turns a set `DeletionQueued` back off. -/
theorem PublicOp.run_keeps_flag (op : PublicOp) (c : CCoplayConnection)
    (h : c.DeletionQueued = true) : (op.run c).DeletionQueued = true := by
  cases op <;> first | rfl | exact h

/-- A sequence of public operations never turns a set `DeletionQueued` off. -/
theorem runPublicOps_keeps_flag (ops : List PublicOp) :
    ∀ c : CCoplayConnection, c.DeletionQueued = true →
      (runPublicOps ops c).DeletionQueued = true := by
  induction ops with
  | nil => intro c h; exact h
  | cons op rest ih =>
    intro c h
    have step := ih (op.run c) (PublicOp.run_keeps_flag op c h)
    simpa [runPublicOps] using step

/-- C5: for every connection state, `QueueForDeletion` sets `DeletionQueued`
to true and leaves GameReady, LocalSocket, Port, SendbackAddress,
SteamConnection, TimeStarted and LastPacketTime unchanged; it is idempotent,
and after it no sequence of public operations of the connection clears the
flag. -/
theorem QueueForDeletion_frame (c : CCoplayConnection) :
    c.QueueForDeletion.DeletionQueued = true ∧
    c.QueueForDeletion.GameReady = c.GameReady ∧
    c.QueueForDeletion.LocalSocket = c.LocalSocket ∧
    c.QueueForDeletion.Port = c.Port ∧
    c.QueueForDeletion.SendbackAddress = c.SendbackAddress ∧
    c.QueueForDeletion.SteamConnection = c.SteamConnection ∧
    c.QueueForDeletion.TimeStarted = c.TimeStarted ∧
    c.QueueForDeletion.LastPacketTime = c.LastPacketTime ∧
    c.QueueForDeletion.QueueForDeletion = c.QueueForDeletion ∧
    (∀ ops : List PublicOp, (runPublicOps ops c.QueueForDeletion).DeletionQueued = true) :=
  ⟨rfl, rfl, rfl, rfl, rfl, rfl, rfl, rfl, rfl,
    fun ops => runPublicOps_keeps_flag ops c.QueueForDeletion rfl⟩

/-! ### The connection handler -/

/-- C6: a newly constructed handler has role Unavailable: `GetRole()` called
on it before any other operation returns `eConnectionRole_UNAVAILABLE`; and on
every handler `GetRole()` returns the stored `Role` and leaves the handler as
it was. -/
theorem GetRole_fresh_and_pure :
    (∀ indeterminate : Nat,
      (CCoplayConnectionHandler.new indeterminate).GetRole =
        (ConnectionRole.eConnectionRole_UNAVAILABLE,
          CCoplayConnectionHandler.new indeterminate)) ∧
    (∀ h : CCoplayConnectionHandler, h.GetRole.1 = h.Role ∧ h.GetRole.2 = h) :=
  ⟨fun _ => rfl, fun _ => ⟨rfl, rfl⟩⟩

/-- C4: when `Init` reaches the transport initialisers: if `SDL_Init` or
`SDLNet_Init` returns non-zero, `Init` ends in the fatal `Error` and
`g_pCoplayConnectionHandler` still has the value it had before the call; if
both return 0, `Init` returns true with `g_pCoplayConnectionHandler` pointing
to this handler. -/
theorem Init_setup_failure_fatal (env : InitEnv) (this : Nat) (p : Process)
    (hreach : env.reachesInitialisers = true) :
    ((env.SDL_Init ≠ 0 ∨ env.SDLNet_Init ≠ 0) →
      (CCoplayConnectionHandler.Init env this p).isFatal = true ∧
      (CCoplayConnectionHandler.Init env this p).after.g_pCoplayConnectionHandler =
        p.g_pCoplayConnectionHandler) ∧
    ((env.SDL_Init = 0 ∧ env.SDLNet_Init = 0) →
      ∃ after, CCoplayConnectionHandler.Init env this p = .returned true after ∧
        after.g_pCoplayConnectionHandler = some this) := by
  have hgate : (env.GAME_DLL && !env.IsDedicatedServer) = false := by
    have h := hreach
    simp only [InitEnv.reachesInitialisers, Bool.not_eq_true'] at h
    exact h
  constructor
  · intro hfail
    by_cases h1 : env.SDL_Init = 0
    · have h2 : env.SDLNet_Init ≠ 0 := by
        rcases hfail with h | h
        · exact absurd h1 h
        · exact h
      simp [CCoplayConnectionHandler.Init, hgate, h1, h2, Outcome.isFatal, Outcome.after]
    · simp [CCoplayConnectionHandler.Init, hgate, h1, Outcome.isFatal, Outcome.after]
  · rintro ⟨h1, h2⟩
    simp [CCoplayConnectionHandler.Init, hgate, h1, h2]

/-- Witness of C4 on a process whose global pointer is still null: a client
build whose SDL_net initialiser fails with -1 ends in `Error` with the pointer
still null, and one whose initialisers both return 0 returns true with the
pointer set to the handler (address 7). -/
theorem Init_setup_failure_fatal_witness :
    ((CCoplayConnectionHandler.Init ⟨false, false, 0, -1⟩ 7
        ⟨none, [], false, []⟩).isFatal = true ∧
      (CCoplayConnectionHandler.Init ⟨false, false, 0, -1⟩ 7
        ⟨none, [], false, []⟩).after.g_pCoplayConnectionHandler = none) ∧
    (∃ after, CCoplayConnectionHandler.Init ⟨true, true, 0, 0⟩ 7 ⟨none, [], false, []⟩ =
        .returned true after ∧ after.g_pCoplayConnectionHandler = some 7) :=
  ⟨(Init_setup_failure_fatal ⟨false, false, 0, -1⟩ 7 ⟨none, [], false, []⟩ (by decide)).1
      (Or.inr (by decide)),
    (Init_setup_failure_fatal ⟨true, true, 0, 0⟩ 7 ⟨none, [], false, []⟩ (by decide)).2
      ⟨by decide, by decide⟩⟩

/-! ### Admission -/

/-- The reply a client builds from a password equals the expected message
exactly when the password is the host's. -/
theorem clientReply_eq_iff (Password supplied : List Char) :
    clientReply supplied = COPLAY_NETMSG_OK.toList ++ Password ↔ supplied = Password := by
  unfold clientReply
  exact List.append_right_inj _

/-- C1: host-side admission, for every join filter, every `isFriend` and every
password the client may supply (correct, incorrect, or none at all): Off
always rejects with NotOpen; Everyone always accepts; Friends accepts if and
only if `isFriend` and otherwise rejects with NotFriend; Controlled accepts
only after a control message `OK` followed by bytes equal to the current
password, and otherwise (mismatch or timeout) rejects with BadPassword. -/
theorem hostAdmission_table (isFriend : Bool) (Password : List Char)
    (supplied : Option (List Char)) (event : HandshakeEvent) :
    hostAdmission .eP2PFilter_OFF isFriend Password event = .rejected .App_NotOpen ∧
    hostAdmission .eP2PFilter_EVERYONE isFriend Password event = .accepted ∧
    (hostAdmission .eP2PFilter_FRIENDS isFriend Password event = .accepted ↔
      isFriend = true) ∧
    hostAdmission .eP2PFilter_FRIENDS isFriend Password event =
      (if isFriend = true then .accepted else .rejected .App_NotFriend) ∧
    (hostAdmission .eP2PFilter_CONTROLLED isFriend Password event = .accepted ↔
      event = .controlMessage (COPLAY_NETMSG_OK.toList ++ Password)) ∧
    hostAdmission .eP2PFilter_CONTROLLED isFriend Password event =
      (if event = .controlMessage (COPLAY_NETMSG_OK.toList ++ Password) then .accepted
       else .rejected .App_BadPassword) ∧
    hostAdmission .eP2PFilter_CONTROLLED isFriend Password .timedOut =
      .rejected .App_BadPassword ∧
    (hostAdmission .eP2PFilter_CONTROLLED isFriend Password (clientEvent supplied) =
        .accepted ↔ supplied = some Password) ∧
    hostAdmission .eP2PFilter_CONTROLLED isFriend Password (clientEvent supplied) =
      (if supplied = some Password then .accepted else .rejected .App_BadPassword) := by
  have hev : ∀ e : HandshakeEvent,
      hostAdmission .eP2PFilter_CONTROLLED isFriend Password e =
        (if e = .controlMessage (COPLAY_NETMSG_OK.toList ++ Password) then .accepted
         else .rejected .App_BadPassword) := by
    intro e
    cases e with
    | timedOut => simp [hostAdmission, JoinPolicy, handshake]
    | controlMessage bytes =>
      by_cases h : bytes = COPLAY_NETMSG_OK.toList ++ Password
      · simp [hostAdmission, JoinPolicy, handshake, h]
      · simp [hostAdmission, JoinPolicy, handshake, h]
  have hiff : ∀ e : HandshakeEvent,
      (hostAdmission .eP2PFilter_CONTROLLED isFriend Password e = .accepted ↔
        e = .controlMessage (COPLAY_NETMSG_OK.toList ++ Password)) := by
    intro e
    rw [hev e]
    by_cases h : e = .controlMessage (COPLAY_NETMSG_OK.toList ++ Password)
    · simp [h]
    · simp [h]
  have hcl : (clientEvent supplied = .controlMessage (COPLAY_NETMSG_OK.toList ++ Password)) ↔
      supplied = some Password := by
    cases supplied with
    | none => simp [clientEvent]
    | some s =>
      simp only [clientEvent, HandshakeEvent.controlMessage.injEq, Option.some.injEq]
      exact clientReply_eq_iff Password s
  refine ⟨rfl, rfl, ?_, ?_, hiff event, hev event, rfl, ?_, ?_⟩
  · cases isFriend <;> simp [hostAdmission, JoinPolicy]
  · cases isFriend <;> simp [hostAdmission, JoinPolicy]
  · rw [hiff, hcl]
  · rw [hev]
    by_cases h : supplied = some Password
    · rw [if_pos h, if_pos (hcl.2 h)]
    · rw [if_neg h, if_neg (fun h2 => h (hcl.1 h2))]

/-! ### Byte-order helpers -/

/-- Masking with `0xFF` is the remainder modulo 256. -/
theorem and_0xFF_eq_mod (x : Nat) : x &&& 0xFF = x % 256 :=
  Nat.and_pow_two_sub_one_eq_mod x 8

/-- Byte `k` of a value, in arithmetic form. -/
theorem byteOf_eq (x k : Nat) : byteOf x k = x / 2 ^ (8 * k) % 256 := by
  rw [byteOf, and_0xFF_eq_mod, Nat.shiftRight_eq_div_pow]

/-- Two bytes joined by shift and or, in arithmetic form. -/
theorem pack2_eq (a d : Nat) (ha : a < 256) : a ||| (d <<< 8) = a + 256 * d := by
  have h := Nat.mul_add_lt_is_or (show a < 2 ^ 8 from ha) d
  rw [Nat.shiftLeft_eq, Nat.lor_comm, Nat.mul_comm d, ← h]
  omega

/-- Four bytes joined by shifts and ors, in arithmetic form. -/
theorem pack4_eq (a b c d : Nat) (ha : a < 256) (hb : b < 256) (hc : c < 256) :
    a ||| (b <<< 8) ||| (c <<< 16) ||| (d <<< 24) =
      a + 256 * b + 65536 * c + 16777216 * d := by
  have h1 : a ||| (b <<< 8) = a + 256 * b := pack2_eq a b ha
  have h2 := Nat.mul_add_lt_is_or (show a + 256 * b < 2 ^ 16 by omega) c
  have h3 := Nat.mul_add_lt_is_or (show 2 ^ 16 * c + (a + 256 * b) < 2 ^ 24 by omega) d
  rw [h1, Nat.shiftLeft_eq, Nat.shiftLeft_eq, Nat.lor_comm (a + 256 * b), Nat.mul_comm c,
    ← h2, Nat.lor_comm, Nat.mul_comm d, ← h3]
  omega

/-- The swapped 32-bit value in arithmetic form, on either byte order. -/
theorem SwapEndian32_arith (bo : ByteOrder) (x : Nat) :
    SwapEndian32 bo x =
      x / 16777216 % 256 + 256 * (x / 65536 % 256) + 65536 * (x / 256 % 256)
        + 16777216 * (x % 256) := by
  have b0 : byteOf x 0 = x % 256 := by rw [byteOf_eq]; simp
  have b1 : byteOf x 1 = x / 256 % 256 := by rw [byteOf_eq]; norm_num
  have b2 : byteOf x 2 = x / 65536 % 256 := by rw [byteOf_eq]; norm_num
  have b3 : byteOf x 3 = x / 16777216 % 256 := by rw [byteOf_eq]; norm_num
  have key : SwapEndian32 bo x =
      byteOf x 3 ||| (byteOf x 2 <<< 8) ||| (byteOf x 1 <<< 16) ||| (byteOf x 0 <<< 24) := by
    cases bo <;> rfl
  rw [key, pack4_eq _ _ _ _ (by rw [b3]; omega) (by rw [b2]; omega) (by rw [b1]; omega),
    b0, b1, b2, b3]

/-- The swapped 16-bit value in arithmetic form, on either byte order. -/
theorem SwapEndian16_arith (bo : ByteOrder) (x : Nat) :
    SwapEndian16 bo x = x / 256 % 256 + 256 * (x % 256) := by
  have b0 : byteOf x 0 = x % 256 := by rw [byteOf_eq]; simp
  have b1 : byteOf x 1 = x / 256 % 256 := by rw [byteOf_eq]; norm_num
  have key : SwapEndian16 bo x = byteOf x 1 ||| (byteOf x 0 <<< 8) := by
    cases bo <;> rfl
  rw [key, pack2_eq _ _ (by rw [b1]; omega), b0, b1]


/-- Reading the four bytes back out of a value assembled from bytes. -/
theorem bytes_of_sum4 (a b c d : Nat) (ha : a < 256) (hb : b < 256) (hc : c < 256)
    (hd : d < 256) :
    (a + 256 * b + 65536 * c + 16777216 * d) % 256 = a ∧
    (a + 256 * b + 65536 * c + 16777216 * d) / 256 % 256 = b ∧
    (a + 256 * b + 65536 * c + 16777216 * d) / 65536 % 256 = c ∧
    (a + 256 * b + 65536 * c + 16777216 * d) / 16777216 % 256 = d := by
  refine ⟨by omega, by omega, by omega, by omega⟩

/-- Reading the two bytes back out of a value assembled from bytes. -/
theorem bytes_of_sum2 (a b : Nat) (ha : a < 256) (hb : b < 256) :
    (a + 256 * b) % 256 = a ∧ (a + 256 * b) / 256 % 256 = b := by
  refine ⟨by omega, by omega⟩

/-- A 32-bit value is the sum of its four bytes at their weights. -/
theorem sum_of_bytes4 (x : Nat) (hx : x < 2 ^ 32) :
    x % 256 + 256 * (x / 256 % 256) + 65536 * (x / 65536 % 256)
      + 16777216 * (x / 16777216 % 256) = x := by
  omega

/-- Bit `i` of the mask `0xFF`. -/
theorem testBit_0xFF (i : Nat) : Nat.testBit 0xFF i = decide (i < 8) := by
  have h : (0xFF : Nat) = 2 ^ 8 - 1 := by decide
  rw [h, Nat.testBit_two_pow_sub_one]

/-- Bit `i` of the mask `0xFF00`. -/
theorem testBit_0xFF00 (i : Nat) :
    Nat.testBit 0xFF00 i = (decide (8 ≤ i) && decide (i < 16)) := by
  have h : (0xFF00 : Nat) = (2 ^ 8 - 1) <<< 8 := by decide
  rw [h, Nat.testBit_shiftLeft, Nat.testBit_two_pow_sub_one]
  by_cases h8 : 8 ≤ i
  · simp [h8]; omega
  · simp [h8]

/-- The term `(x & 0xFF00) << 8` is byte 1 of `x` moved to byte 2. -/
theorem and_0xFF00_shl (x : Nat) : (x &&& 0xFF00) <<< 8 = (byteOf x 1) <<< 16 := by
  apply Nat.eq_of_testBit_eq
  intro i
  simp only [byteOf, Nat.testBit_shiftLeft, Nat.testBit_and, Nat.testBit_shiftRight,
    testBit_0xFF, testBit_0xFF00]
  rcases (by omega : i < 8 ∨ (8 ≤ i ∧ i < 16) ∨ (16 ≤ i ∧ i < 24) ∨ 24 ≤ i) with h | h | h | h
  · simp [decide_eq_false (by omega : ¬ i ≥ 8), decide_eq_false (by omega : ¬ i ≥ 16)]
  · simp [decide_eq_false (by omega : ¬ 8 ≤ i - 8), decide_eq_false (by omega : ¬ i ≥ 16)]
  · simp [decide_eq_true (by omega : i ≥ 8), decide_eq_true (by omega : i ≥ 16),
      decide_eq_true (by omega : 8 ≤ i - 8), decide_eq_true (by omega : i - 8 < 16),
      decide_eq_true (by omega : i - 16 < 8), (by omega : 8 + (i - 16) = i - 8)]
  · simp [decide_eq_false (by omega : ¬ i - 8 < 16), decide_eq_false (by omega : ¬ i - 16 < 8)]

/-- The term `(x >> 8) & 0xFF00` is byte 2 of `x` moved to byte 1. -/
theorem shr_and_0xFF00 (x : Nat) : (x >>> 8) &&& 0xFF00 = (byteOf x 2) <<< 8 := by
  apply Nat.eq_of_testBit_eq
  intro i
  simp only [byteOf, Nat.testBit_shiftLeft, Nat.testBit_and, Nat.testBit_shiftRight,
    testBit_0xFF, testBit_0xFF00]
  rcases (by omega : i < 8 ∨ (8 ≤ i ∧ i < 16) ∨ 16 ≤ i) with h | h | h
  · simp [decide_eq_false (by omega : ¬ i ≥ 8), decide_eq_false (by omega : ¬ 8 ≤ i)]
  · simp [decide_eq_true (by omega : i ≥ 8), decide_eq_true (by omega : 8 ≤ i),
      decide_eq_true (by omega : i < 16), decide_eq_true (by omega : i - 8 < 8),
      (by omega : 16 + (i - 8) = 8 + i)]
  · simp [decide_eq_false (by omega : ¬ i < 16), decide_eq_false (by omega : ¬ i - 8 < 8)]

/-- For a 32-bit value the term `x >> 24` is byte 3 of `x`. -/
theorem shr24_eq_byte (x : Nat) (hx : x < 2 ^ 32) : x >>> 24 = byteOf x 3 := by
  rw [byteOf_eq, Nat.shiftRight_eq_div_pow]
  omega

/-- For a 16-bit value the term `x >> 8` is byte 1 of `x`. -/
theorem shr8_eq_byte (x : Nat) (hx : x < 2 ^ 16) : x >>> 8 = byteOf x 1 := by
  rw [byteOf_eq, Nat.shiftRight_eq_div_pow]
  omega

/-- Reversing the order of four or-ed terms. -/
theorem lor_rev4 (a b c d : Nat) : a ||| b ||| c ||| d = d ||| c ||| b ||| a := by
  rw [Nat.lor_comm (a ||| b ||| c) d, Nat.lor_comm (a ||| b) c, Nat.lor_comm a b,
    ← Nat.lor_assoc, ← Nat.lor_assoc]

/-- The swapped 32-bit value as the shift-and-mask expression. -/
theorem SwapEndian32_formula (bo : ByteOrder) (x : Nat) (hx : x < 2 ^ 32) :
    SwapEndian32 bo x =
      ((x &&& 0xFF) <<< 24) ||| ((x &&& 0xFF00) <<< 8) ||| ((x >>> 8) &&& 0xFF00)
        ||| (x >>> 24) := by
  rw [and_0xFF00_shl, shr_and_0xFF00, shr24_eq_byte x hx]
  cases bo
  · exact lor_rev4 _ _ _ _
  · exact lor_rev4 _ _ _ _

/-- The swapped 16-bit value as the shift-and-mask expression. -/
theorem SwapEndian16_formula (bo : ByteOrder) (x : Nat) (hx : x < 2 ^ 16) :
    SwapEndian16 bo x = ((x &&& 0xFF) <<< 8) ||| (x >>> 8) := by
  rw [shr8_eq_byte x hx]
  cases bo
  · exact Nat.lor_comm _ _
  · exact Nat.lor_comm _ _

/-- The swapped 32-bit value is again a 32-bit value. -/
theorem SwapEndian32_lt (bo : ByteOrder) (x : Nat) : SwapEndian32 bo x < 2 ^ 32 := by
  rw [SwapEndian32_arith]
  omega

/-- The swapped 16-bit value is again a 16-bit value. -/
theorem SwapEndian16_lt (bo : ByteOrder) (x : Nat) : SwapEndian16 bo x < 2 ^ 16 := by
  rw [SwapEndian16_arith]
  omega

/-- Swapping a 32-bit value twice gives it back. -/
theorem SwapEndian32_twice (bo : ByteOrder) (x : Nat) (hx : x < 2 ^ 32) :
    SwapEndian32 bo (SwapEndian32 bo x) = x := by
  rw [SwapEndian32_arith bo (SwapEndian32 bo x), SwapEndian32_arith bo x]
  obtain ⟨h0, h1, h2, h3⟩ := bytes_of_sum4 (x / 16777216 % 256) (x / 65536 % 256)
    (x / 256 % 256) (x % 256) (Nat.mod_lt _ (by norm_num)) (Nat.mod_lt _ (by norm_num))
    (Nat.mod_lt _ (by norm_num)) (Nat.mod_lt _ (by norm_num))
  rw [h0, h1, h2, h3]
  have := sum_of_bytes4 x hx
  omega

/-- Swapping a 16-bit value twice gives it back. -/
theorem SwapEndian16_twice (bo : ByteOrder) (x : Nat) (hx : x < 2 ^ 16) :
    SwapEndian16 bo (SwapEndian16 bo x) = x := by
  rw [SwapEndian16_arith bo (SwapEndian16 bo x), SwapEndian16_arith bo x]
  obtain ⟨h0, h1⟩ := bytes_of_sum2 (x / 256 % 256) (x % 256) (Nat.mod_lt _ (by norm_num))
    (Nat.mod_lt _ (by norm_num))
  rw [h0, h1]
  omega

/-- Bytes of the swapped 32-bit value: byte `k` is byte `3 - k` of the input. -/
theorem SwapEndian32_bytes (bo : ByteOrder) (x : Nat) :
    byteOf (SwapEndian32 bo x) 0 = byteOf x 3 ∧
    byteOf (SwapEndian32 bo x) 1 = byteOf x 2 ∧
    byteOf (SwapEndian32 bo x) 2 = byteOf x 1 ∧
    byteOf (SwapEndian32 bo x) 3 = byteOf x 0 := by
  obtain ⟨h0, h1, h2, h3⟩ := bytes_of_sum4 (x / 16777216 % 256) (x / 65536 % 256)
    (x / 256 % 256) (x % 256) (Nat.mod_lt _ (by norm_num)) (Nat.mod_lt _ (by norm_num))
    (Nat.mod_lt _ (by norm_num)) (Nat.mod_lt _ (by norm_num))
  have b0 : ∀ y, byteOf y 0 = y % 256 := fun y => by rw [byteOf_eq]; simp
  have b1 : ∀ y, byteOf y 1 = y / 256 % 256 := fun y => by rw [byteOf_eq]; norm_num
  have b2 : ∀ y, byteOf y 2 = y / 65536 % 256 := fun y => by rw [byteOf_eq]; norm_num
  have b3 : ∀ y, byteOf y 3 = y / 16777216 % 256 := fun y => by rw [byteOf_eq]; norm_num
  rw [b0, b1, b2, b3, b0, b1, b2, b3, SwapEndian32_arith]
  exact ⟨h0, h1, h2, h3⟩

/-- Bytes of the swapped 16-bit value: the two bytes of the input exchanged. -/
theorem SwapEndian16_bytes (bo : ByteOrder) (x : Nat) :
    byteOf (SwapEndian16 bo x) 0 = byteOf x 1 ∧
    byteOf (SwapEndian16 bo x) 1 = byteOf x 0 := by
  have b0 : ∀ y, byteOf y 0 = y % 256 := fun y => by rw [byteOf_eq]; simp
  have b1 : ∀ y, byteOf y 1 = y / 256 % 256 := fun y => by rw [byteOf_eq]; norm_num
  rw [b0, b1, b0, b1, SwapEndian16_arith]
  exact bytes_of_sum2 (x / 256 % 256) (x % 256) (Nat.mod_lt _ (by norm_num))
    (Nat.mod_lt _ (by norm_num))

/-- C7: for every 32-bit unsigned `x`, on either host byte order,
`SwapEndian32 x` equals `((x & 0xFF) << 24) | ((x & 0xFF00) << 8) |
((x >> 8) & 0xFF00) | (x >> 24)`; it is the 32-bit integer whose bytes are the
bytes of `x` in reverse order. -/
theorem SwapEndian32_reverses_bytes (bo : ByteOrder) (x : Nat) (hx : x < 2 ^ 32) :
    SwapEndian32 bo x =
      (((x &&& 0xFF) <<< 24) ||| ((x &&& 0xFF00) <<< 8) ||| ((x >>> 8) &&& 0xFF00)
        ||| (x >>> 24)) ∧
    SwapEndian32 bo x < 2 ^ 32 ∧
    byteOf (SwapEndian32 bo x) 0 = byteOf x 3 ∧
    byteOf (SwapEndian32 bo x) 1 = byteOf x 2 ∧
    byteOf (SwapEndian32 bo x) 2 = byteOf x 1 ∧
    byteOf (SwapEndian32 bo x) 3 = byteOf x 0 ∧
    SwapEndian32 .little x = SwapEndian32 .big x :=
  ⟨SwapEndian32_formula bo x hx, SwapEndian32_lt bo x, (SwapEndian32_bytes bo x).1,
    (SwapEndian32_bytes bo x).2.1, (SwapEndian32_bytes bo x).2.2.1,
    (SwapEndian32_bytes bo x).2.2.2,
    (SwapEndian32_arith .little x).trans (SwapEndian32_arith .big x).symm⟩

/-- Witness of C7: `0x11223344` maps to `0x44332211` on a little-endian host. -/
theorem SwapEndian32_reverses_bytes_witness :
    (0x11223344 : Nat) < 2 ^ 32 ∧ SwapEndian32 .little 0x11223344 = 0x44332211 :=
  ⟨by decide,
    (SwapEndian32_reverses_bytes .little 0x11223344 (by decide)).1.trans (by decide)⟩

/-- C8: for every 16-bit unsigned `x`, on either host byte order,
`SwapEndian16 x` equals `((x & 0xFF) << 8) | (x >> 8)`; it is the 16-bit
integer whose two bytes are the bytes of `x` exchanged. -/
theorem SwapEndian16_exchanges_bytes (bo : ByteOrder) (x : Nat) (hx : x < 2 ^ 16) :
    SwapEndian16 bo x = (((x &&& 0xFF) <<< 8) ||| (x >>> 8)) ∧
    SwapEndian16 bo x < 2 ^ 16 ∧
    byteOf (SwapEndian16 bo x) 0 = byteOf x 1 ∧
    byteOf (SwapEndian16 bo x) 1 = byteOf x 0 ∧
    SwapEndian16 .little x = SwapEndian16 .big x :=
  ⟨SwapEndian16_formula bo x hx, SwapEndian16_lt bo x, (SwapEndian16_bytes bo x).1,
    (SwapEndian16_bytes bo x).2,
    (SwapEndian16_arith .little x).trans (SwapEndian16_arith .big x).symm⟩

/-- Witness of C8: `0x1234` maps to `0x3412` on a big-endian host. -/
theorem SwapEndian16_exchanges_bytes_witness :
    (0x1234 : Nat) < 2 ^ 16 ∧ SwapEndian16 .big 0x1234 = 0x3412 :=
  ⟨by decide, (SwapEndian16_exchanges_bytes .big 0x1234 (by decide)).1.trans (by decide)⟩

/-- C10: each helper is an involution on its width: for every 32-bit `x`,
`SwapEndian32 (SwapEndian32 x) = x`, and for every 16-bit `y`,
`SwapEndian16 (SwapEndian16 y) = y`; hence each is a bijection of the values
of its width onto themselves. -/
theorem SwapEndian_involution (bo : ByteOrder) (x y : Nat) (hx : x < 2 ^ 32)
    (hy : y < 2 ^ 16) :
    SwapEndian32 bo (SwapEndian32 bo x) = x ∧
    SwapEndian16 bo (SwapEndian16 bo y) = y ∧
    Set.BijOn (SwapEndian32 bo) {n | n < 2 ^ 32} {n | n < 2 ^ 32} ∧
    Set.BijOn (SwapEndian16 bo) {n | n < 2 ^ 16} {n | n < 2 ^ 16} := by
  refine ⟨SwapEndian32_twice bo x hx, SwapEndian16_twice bo y hy, ⟨?_, ?_, ?_⟩, ⟨?_, ?_, ?_⟩⟩
  · intro n _
    exact SwapEndian32_lt bo n
  · intro a ha b hb hab
    have h := congrArg (SwapEndian32 bo) hab
    rwa [SwapEndian32_twice bo a ha, SwapEndian32_twice bo b hb] at h
  · intro b hb
    exact ⟨SwapEndian32 bo b, SwapEndian32_lt bo b, SwapEndian32_twice bo b hb⟩
  · intro n _
    exact SwapEndian16_lt bo n
  · intro a ha b hb hab
    have h := congrArg (SwapEndian16 bo) hab
    rwa [SwapEndian16_twice bo a ha, SwapEndian16_twice bo b hb] at h
  · intro b hb
    exact ⟨SwapEndian16 bo b, SwapEndian16_lt bo b, SwapEndian16_twice bo b hb⟩

/-- Witness of C10 at `0x11223344` and `0x1234` on a little-endian host. -/
theorem SwapEndian_involution_witness :
    ((0x11223344 : Nat) < 2 ^ 32 ∧ (0x1234 : Nat) < 2 ^ 16) ∧
    SwapEndian32 .little (SwapEndian32 .little 0x11223344) = 0x11223344 ∧
    SwapEndian16 .little (SwapEndian16 .little 0x1234) = 0x1234 :=
  ⟨⟨by decide, by decide⟩,
    (SwapEndian_involution .little 0x11223344 0x1234 (by decide) (by decide)).1,
    (SwapEndian_involution .little 0x11223344 0x1234 (by decide) (by decide)).2.1⟩

/-! ### `PostInit` -/

/-- Comparing against a string `t` free of terminators over exactly its
length: `V_strncmp` answers 0 if and only if the other string starts with `t`. -/
theorem V_strncmp_eq_zero_iff (t : List Char) (ht : ∀ c ∈ t, c ≠ Char.ofNat 0) :
    ∀ s : List Char, V_strncmp s t t.length = 0 ↔ s.take t.length = t := by
  induction t with
  | nil => intro s; simp [V_strncmp]
  | cons c rest ih =>
    have hc : c ≠ Char.ofNat 0 := ht c (List.mem_cons_self c rest)
    have hrest : ∀ d ∈ rest, d ≠ Char.ofNat 0 := fun d hd => ht d (List.mem_cons_of_mem c hd)
    intro s
    cases s with
    | nil =>
      have hne : Char.ofNat 0 ≠ c := fun h => hc h.symm
      simp only [List.length_cons, V_strncmp, charAt, List.getD_nil, List.getD_cons_zero]
      rw [if_pos hne]
      constructor
      · intro h
        split at h <;> simp at h
      · intro h
        simp at h
    | cons a s2 =>
      simp only [List.length_cons, V_strncmp, charAt, List.getD_cons_zero, List.tail_cons,
        List.take_succ_cons, List.cons.injEq]
      by_cases hac : a = c
      · subst hac
        simp only [ne_eq, not_true_eq_false, if_false, if_neg hc, true_and]
        exact ih hrest s2
      · rw [if_pos hac]
        constructor
        · intro h
          split at h <;> simp at h
        · intro h
          exact absurd h.1 hac

/-- The launch token `+coplay_connect` has 15 characters, none a terminator. -/
theorem connect_token_shape :
    "+coplay_connect".toList.length = 15 ∧
    ∀ c ∈ "+coplay_connect".toList, c ≠ Char.ofNat 0 := by
  refine ⟨by decide, ?_⟩
  decide

/-- The test `PostInit` makes on the command line, as a statement about its
first 15 characters. -/
theorem PostInit_test_iff (szCommandLine : List Char) :
    V_strncmp szCommandLine "+coplay_connect".toList 15 = 0 ↔
      szCommandLine.take 15 = "+coplay_connect".toList := by
  have h := V_strncmp_eq_zero_iff "+coplay_connect".toList connect_token_shape.2 szCommandLine
  rw [connect_token_shape.1] at h
  exact h

/-- C9: `PostInit` issues a join request if and only if the first 15
characters of the launch command line are exactly `+coplay_connect`; when it
does, there is one request and its connect string is the whole command line
(of at most 255 characters, what the 256-byte array `szCommandLine` holds);
otherwise, and in particular on the empty command line, no join request is
issued. -/
theorem PostInit_join_request (dontSetThreadMode : Bool) (szCommandLine : List Char)
    (hlen : szCommandLine.length < szCommandLineSize) :
    ((∃ c, Effect.JoinGame c ∈ CCoplayConnectionHandler.PostInit dontSetThreadMode szCommandLine)
      ↔ szCommandLine.take 15 = "+coplay_connect".toList) ∧
    joinRequests (CCoplayConnectionHandler.PostInit dontSetThreadMode szCommandLine) =
      (if szCommandLine.take 15 = "+coplay_connect".toList then [szCommandLine] else []) ∧
    joinRequests (CCoplayConnectionHandler.PostInit dontSetThreadMode []) = [] := by
  have hcopy : Q_snprintf_s k_cchMaxRichPresenceValueLength szCommandLine = szCommandLine := by
    unfold Q_snprintf_s k_cchMaxRichPresenceValueLength
    unfold szCommandLineSize at hlen
    exact List.take_of_length_le (by omega)
  have hempty : ¬ (V_strncmp [] "+coplay_connect".toList 15 = 0) := by
    rw [PostInit_test_iff]
    decide
  refine ⟨?_, ?_, ?_⟩
  · by_cases h : szCommandLine.take 15 = "+coplay_connect".toList
    · have ht := (PostInit_test_iff szCommandLine).2 h
      refine ⟨fun _ => h, fun _ => ⟨szCommandLine, ?_⟩⟩
      unfold CCoplayConnectionHandler.PostInit
      rw [if_pos ht, hcopy]
      simp
    · have ht : ¬ (V_strncmp szCommandLine "+coplay_connect".toList 15 = 0) :=
        fun h2 => h ((PostInit_test_iff szCommandLine).1 h2)
      refine ⟨fun hex => ?_, fun h2 => absurd h2 h⟩
      obtain ⟨c, hc⟩ := hex
      unfold CCoplayConnectionHandler.PostInit at hc
      rw [if_neg ht] at hc
      cases dontSetThreadMode <;> simp at hc
  · by_cases h : szCommandLine.take 15 = "+coplay_connect".toList
    · have ht := (PostInit_test_iff szCommandLine).2 h
      unfold CCoplayConnectionHandler.PostInit
      rw [if_pos ht, hcopy, if_pos h]
      cases dontSetThreadMode <;> simp [joinRequests]
    · have ht : ¬ (V_strncmp szCommandLine "+coplay_connect".toList 15 = 0) :=
        fun h2 => h ((PostInit_test_iff szCommandLine).1 h2)
      unfold CCoplayConnectionHandler.PostInit
      rw [if_neg ht, if_neg h]
      cases dontSetThreadMode <;> simp [joinRequests]
  · unfold CCoplayConnectionHandler.PostInit
    rw [if_neg hempty]
    cases dontSetThreadMode <;> simp [joinRequests]

/-- Witness of C9: launched with `+coplay_connect 12345`, `PostInit` issues
one join request carrying that whole command line. -/
theorem PostInit_join_request_witness :
    "+coplay_connect 12345".toList.length < szCommandLineSize ∧
    joinRequests (CCoplayConnectionHandler.PostInit false "+coplay_connect 12345".toList) =
      ["+coplay_connect 12345".toList] :=
  ⟨by decide,
    (PostInit_join_request false "+coplay_connect 12345".toList (by decide)).2.1.trans
      (by decide)⟩

end Coplay
